import Mathlib

/-!
Shallow embedding of `src/js/ModalElement.js`.

The `ModalElement` class manages one modal dialog: DOM cosmetic state
(title/description markup, button labels, inline `display` styles), a focus
bookkeeping pair (`document.activeElement` and the recorded
`#preModalFocusTarget`), and a per-invocation callback registry
(`#registeredListeners`, mirrored into DOM event listeners attached to the
root element).

User-supplied callback functions are modelled as opaque actions identified by
a natural number; running one appends `(id, isActive-at-run-time)` to a
`trace` field, so theorems can speak about which callbacks ran, in which
order, and which `isActive` value they observed.  The one internal callback
registered by `start` (the cleanup closure of lines 256-263) is modelled by a
distinguished `Action.cleanup` whose effect detaches every registered
listener, exactly as the source closure does.

Event dispatch follows the DOM semantics relevant to this code: dispatching
an event type runs the listeners attached at dispatch time, in attachment
order, skipping any listener that has been detached before its turn comes;
listeners attached during dispatch do not run for that dispatch.  The root
element also carries one permanent built-in listener, attached at
construction (line 99 of the source): a click event whose composed path
starts at the root itself calls `end()`.  A click-typed event dispatched
synchronously on the root via `dispatchEvent` targets the root, so that
listener fires — before any dynamically registered click listener, since it
was attached first.
-/

set_option autoImplicit false

namespace ModalElement

/-- A callback action: either an opaque user-supplied function (identified by
a number, its effect being recorded in the trace), or the internal cleanup
closure that `start` registers on the end event. -/
inductive Action where
  | user (id : Nat)
  | cleanup
  deriving DecidableEq, Repr

/-- A focusable page element: the modal's own `md-content` panel, or any
other element of the page. -/
inductive Elem where
  | mdContent
  | page (n : Nat)
  deriving DecidableEq, Repr

/-- One entry of `#registeredListeners`: the JS object
`{ type, listener: () => actions.forEach(a => a()) }`.  The `id` models the
identity of the listener closure (each `registerActions` call creates a fresh
closure), which is what `removeEventListener` matches on. -/
structure RegListener where
  id : Nat
  type : String
  actions : List Action
  deriving DecidableEq, Repr

/-- A JavaScript argument for a callback-group parameter: `undefined`,
`null`, or an array of actions.  The distinction between `undefined` and
`null` matters: `registerActions` guards on falsiness (both are no-ops) while
the button-visibility check in `start` compares against `undefined` only. -/
inductive JSArg where
  | undef
  | null
  | arr (acts : List Action)
  deriving DecidableEq, Repr

/-- A JavaScript value passed to the `confirmText` / `declineText` setters:
`undefined`, `null`, or a string. -/
inductive JSVal where
  | undef
  | null
  | str (s : String)
  deriving DecidableEq, Repr

/-- JavaScript truthiness for `JSVal`: nullish values and the empty string
are falsy. -/
def truthy : JSVal → Bool
  | JSVal.undef => false
  | JSVal.null => false
  | JSVal.str s => !(s == "")

/-- The string carried by a `JSVal` (used only in the truthy branch of the
setters, where the value is a nonempty string). -/
def jsStrVal : JSVal → String
  | JSVal.str s => s
  | _ => ""

/-- The state of one `ModalElement` instance: the relevant DOM state of its
owned subtree, the focus bookkeeping, the callback registry (both the
`#registeredListeners` array and the dynamically attached DOM listeners of
the root element), the `#isActive` flag, and the trace of executed user
actions. -/
structure ModalState where
  titleHTML : String
  descriptionHTML : String
  confirmText : String
  declineText : String
  confirmDisplay : Option String
  declineDisplay : Option String
  modalDisplay : Option String
  preModalFocusTarget : Option Elem
  focusedElement : Elem
  registeredListeners : List RegListener
  domListeners : List RegListener
  nextListenerId : Nat
  isActive : Bool
  trace : List (Nat × Bool)
  deriving DecidableEq, Repr

/-- Default confirm-button label (`#DEFAULT_CONFIRM_TEXT`). -/
def DEFAULT_CONFIRM_TEXT : String := "Ok"

/-- Default decline-button label (`#DEFAULT_DECLINE_TEXT`). -/
def DEFAULT_DECLINE_TEXT : String := "Decline"

/-- The `confirmText` setter: a truthy value becomes the label, anything
else (nullish or empty string) resets to the default. -/
def setConfirmText (st : ModalState) (v : JSVal) : ModalState :=
  if truthy v then
    { st with confirmText := jsStrVal v }
  else
    { st with confirmText := DEFAULT_CONFIRM_TEXT }

/-- The `declineText` setter: a truthy value becomes the label, anything
else (nullish or empty string) resets to the default. -/
def setDeclineText (st : ModalState) (v : JSVal) : ModalState :=
  if truthy v then
    { st with declineText := jsStrVal v }
  else
    { st with declineText := DEFAULT_DECLINE_TEXT }

/-- Run one action of a listener: a user action records itself and the
`isActive` value it observes; the internal cleanup action detaches every
listener recorded in `#registeredListeners` from the root element and resets
the array (lines 256-263 of the source). -/
def runAction (st : ModalState) (a : Action) : ModalState :=
  match a with
  | Action.user i => { st with trace := st.trace ++ [(i, st.isActive)] }
  | Action.cleanup =>
      { st with
        domListeners := st.domListeners.filter
          (fun d => !(st.registeredListeners.any (fun r => r.id == d.id))),
        registeredListeners := [] }

/-- Run one listener closure: `() => actions.forEach(action => action())`. -/
def runListener (st : ModalState) (l : RegListener) : ModalState :=
  l.actions.foldl runAction st

/-- One step of event dispatch: the listener runs only if it is still
attached when its turn comes. -/
def dispatchStep (acc : ModalState) (l : RegListener) : ModalState :=
  if acc.domListeners.any (fun d => d.id == l.id) then runListener acc l else acc

/-- The dynamically registered part of `#modal.dispatchEvent(event)`: run
the `registerActions`-attached listeners for `ty` that are attached at
dispatch time, in attachment order, skipping those detached before their
turn.  (The full `dispatch` below additionally runs the root's permanent
built-in click listener first.) -/
def dispatchDynamic (s : ModalState) (ty : String) : ModalState :=
  (s.domListeners.filter (fun l => l.type == ty)).foldl dispatchStep s

/-- `invokeEvent(event)` specialized to event types that carry no built-in
listener on the root element — every type except `"click"`, in particular
`"modalEnd"`, the type `end()` passes.  For those types this function is
definitionally equal to the public `invokeEvent` below (`endModal_eq_full`
and `invokeEvent_eq_aux` certify this); it exists so that `endModal` can be
defined before `dispatch`, which runs `endModal` from the built-in click
listener. -/
def invokeEventAux (s : ModalState) (ty : String) : ModalState :=
  let s1 := dispatchDynamic s ty
  let removed := s1.registeredListeners.filter (fun l => l.type == ty)
  { s1 with
    registeredListeners := s1.registeredListeners.filter (fun l => !(l.type == ty)),
    domListeners := s1.domListeners.filter
      (fun d => !(removed.any (fun r => r.id == d.id))) }

/-- The state reached by `end` just before it fires the end event: overlay
hidden, focus restored, recorded focus target cleared. -/
def endPre (s : ModalState) : ModalState :=
  let s1 := { s with modalDisplay := none }
  let s2 :=
    match s1.preModalFocusTarget with
    | some e => { s1 with focusedElement := e }
    | none => s1
  { s2 with preModalFocusTarget := none }

/-- `end()`: hide the overlay, restore focus to the recorded element, fire
the end event, and mark the instance inactive.  (`end` is a Lean keyword,
hence the name.)  The end event's type is `"modalEnd"`, which carries no
built-in listener, so `invokeEventAux` here is definitionally the public
`invokeEvent` — `endModal_eq_full` states the body with the public
`invokeEvent` and is proved by `rfl`. -/
def endModal (s : ModalState) : ModalState :=
  let s1 := endPre s
  let s2 := invokeEventAux s1 "modalEnd"
  { s2 with isActive := false }

/-- The permanent click listener the constructor attaches to the root
element (line 99 of the source):
`event => { if (event.composedPath()[0] == this.#modal) this.end() }`.
An event dispatched on the root via `dispatchEvent` has the root as the
first element of its composed path, so a click-typed dispatch always runs
`end()`; any other event type leaves the state unchanged. -/
def builtinClick (s : ModalState) (ty : String) : ModalState :=
  if ty == "click" then endModal s else s

/-- `#modal.dispatchEvent(event)`: the permanent built-in click listener
(attached at construction, hence first in attachment order) runs first; then
the dynamically registered listeners for `ty` that were attached at dispatch
time run in attachment order, each skipped if detached before its turn. -/
def dispatch (s : ModalState) (ty : String) : ModalState :=
  let snapshot := s.domListeners.filter (fun l => l.type == ty)
  snapshot.foldl dispatchStep (builtinClick s ty)

/-- `invokeEvent(event)`: dispatch the event on the root element, then remove
every `#registeredListeners` entry matching the event's type, detaching each
removed entry's listener from the root element. -/
def invokeEvent (s : ModalState) (ty : String) : ModalState :=
  let s1 := dispatch s ty
  let removed := s1.registeredListeners.filter (fun l => l.type == ty)
  { s1 with
    registeredListeners := s1.registeredListeners.filter (fun l => !(l.type == ty)),
    domListeners := s1.domListeners.filter
      (fun d => !(removed.any (fun r => r.id == d.id))) }

/-- `registerActions(eventIdentifier, actions)`: no-op for a falsy (nullish)
`actions`; otherwise store a fresh `{type, listener}` pair in
`#registeredListeners` and attach the listener to the root element. -/
def registerActions (s : ModalState) (ty : String) (a : JSArg) : ModalState :=
  match a with
  | JSArg.arr acts =>
      { s with
        registeredListeners :=
          s.registeredListeners ++ [⟨s.nextListenerId, ty, acts⟩],
        domListeners := s.domListeners ++ [⟨s.nextListenerId, ty, acts⟩],
        nextListenerId := s.nextListenerId + 1 }
  | _ => s

/-- The message of the error thrown when `start` is called while active. -/
def startErrorMessage : String := "Can\x27t start new modal before previous ends."

/-- `start(title, description, onEndActions, onConfirmActions,
onDeclineActions, onStartActions)`.  Throwing is modelled by `Except.error`:
the guard runs before any mutation, so an error result leaves the caller's
state untouched. -/
def start (s : ModalState) (title description : String)
    (onEndActions onConfirmActions onDeclineActions onStartActions : JSArg) :
    Except String ModalState :=
  if s.isActive then
    Except.error startErrorMessage
  else
    let s1 := { s with titleHTML := title, descriptionHTML := description }
    let s2 := registerActions s1 "modalStart" onStartActions
    let s3 := registerActions s2 "modalConfirm" onConfirmActions
    let s4 := registerActions s3 "modalDecline" onDeclineActions
    let s5 := registerActions s4 "modalEnd" onEndActions
    let s6 := registerActions s5 "modalEnd" (JSArg.arr [Action.cleanup])
    let s7 := { s6 with
      confirmDisplay :=
        match onConfirmActions with
        | JSArg.undef => none
        | _ => some "block",
      declineDisplay :=
        match onDeclineActions with
        | JSArg.undef => none
        | _ => some "block" }
    let s8 := { s7 with modalDisplay := some "block" }
    let s9 := { s8 with
      preModalFocusTarget := some s8.focusedElement,
      focusedElement := Elem.mdContent }
    let s10 := invokeEvent s9 "modalStart"
    Except.ok { s10 with isActive := true }

/-- The confirm button's click handler: fire the confirm event, then end. -/
def clickConfirmButton (s : ModalState) : ModalState :=
  endModal (invokeEvent s "modalConfirm")

/-- The decline button's click handler: fire the decline event, then end. -/
def clickDeclineButton (s : ModalState) : ModalState :=
  endModal (invokeEvent s "modalDecline")

/-- The close button's click handler: end directly. -/
def clickCloseButton (s : ModalState) : ModalState :=
  endModal s

/-- The root element's click handler: end only when the click landed on the
overlay background itself (`event.composedPath()[0] == this.#modal`). -/
def clickOverlay (s : ModalState) (targetIsBackdrop : Bool) : ModalState :=
  if targetIsBackdrop then endModal s else s

/-- The state of a freshly constructed instance: default labels, all inline
display styles unset (buttons hidden by the stylesheet), no recorded focus
target, empty registry, inactive. -/
def initialState : ModalState where
  titleHTML := ""
  descriptionHTML := ""
  confirmText := DEFAULT_CONFIRM_TEXT
  declineText := DEFAULT_DECLINE_TEXT
  confirmDisplay := none
  declineDisplay := none
  modalDisplay := none
  preModalFocusTarget := none
  focusedElement := Elem.page 0
  registeredListeners := []
  domListeners := []
  nextListenerId := 0
  isActive := false
  trace := []

/-- Wrap a list of user-action identifiers as the JS array argument holding
those callback functions. -/
def uArr (l : List Nat) : JSArg :=
  JSArg.arr (l.map Action.user)

/-- Inject an optional list of user actions as a JS argument (`none` is an
omitted, i.e. `undefined`, parameter). -/
def toArg : Option (List Nat) → JSArg
  | none => JSArg.undef
  | some l => uArr l

/-- The state reached by `start` just before it fires the start event: data
set, the four callback groups and the internal cleanup callback registered,
buttons shown or hidden, overlay shown, focus moved into the dialog.  Proofs
use it as a stable handle for the corresponding stage of `start`. -/
def startPre (s : ModalState) (title description : String)
    (onEndActions onConfirmActions onDeclineActions onStartActions : JSArg) :
    ModalState :=
  let s1 := { s with titleHTML := title, descriptionHTML := description }
  let s2 := registerActions s1 "modalStart" onStartActions
  let s3 := registerActions s2 "modalConfirm" onConfirmActions
  let s4 := registerActions s3 "modalDecline" onDeclineActions
  let s5 := registerActions s4 "modalEnd" onEndActions
  let s6 := registerActions s5 "modalEnd" (JSArg.arr [Action.cleanup])
  let s7 := { s6 with
    confirmDisplay :=
      match onConfirmActions with
      | JSArg.undef => none
      | _ => some "block",
    declineDisplay :=
      match onDeclineActions with
      | JSArg.undef => none
      | _ => some "block" }
  let s8 := { s7 with modalDisplay := some "block" }
  { s8 with
    preModalFocusTarget := some s8.focusedElement,
    focusedElement := Elem.mdContent }

/-- The fields of the state that dispatching the dynamically registered
listeners never modifies: all cosmetic DOM state, the focus bookkeeping, the
id counter and the active flag.  (The built-in click listener does modify
them, which is why the `Ext` lemmas below are about `invokeEventAux` and
non-click types only.) -/
structure Pres (s t : ModalState) : Prop where
  titleHTML : t.titleHTML = s.titleHTML
  descriptionHTML : t.descriptionHTML = s.descriptionHTML
  confirmText : t.confirmText = s.confirmText
  declineText : t.declineText = s.declineText
  confirmDisplay : t.confirmDisplay = s.confirmDisplay
  declineDisplay : t.declineDisplay = s.declineDisplay
  modalDisplay : t.modalDisplay = s.modalDisplay
  preModalFocusTarget : t.preModalFocusTarget = s.preModalFocusTarget
  focusedElement : t.focusedElement = s.focusedElement
  nextListenerId : t.nextListenerId = s.nextListenerId
  isActive : t.isActive = s.isActive

/-- How a state evolves while an event is dispatched: the `Pres` fields are
untouched and the trace grows by entries all tagged with the `isActive`
value current at dispatch time. -/
structure Ext (s t : ModalState) : Prop where
  pres : Pres s t
  traceExt : ∃ tr, t.trace = s.trace ++ tr ∧ ∀ p ∈ tr, p.2 = s.isActive

/-- A list of actions that contains no occurrence of the internal cleanup
action, i.e. the model of an array of caller-supplied functions. -/
def UserOnly (acts : List Action) : Prop :=
  Action.cleanup ∉ acts

/-- A callback-group argument as an external caller can produce it: nullish,
or an array of caller-supplied functions. -/
def SafeArg : JSArg → Prop
  | JSArg.arr acts => UserOnly acts
  | _ => True

/-- Well-formedness of the listener bookkeeping, maintained by every
operation: the dynamically attached DOM listeners are exactly the
`#registeredListeners` entries, listener identities are distinct and below
the id counter, and every listener is either a wrapped array of
caller-supplied functions or the internal cleanup listener on the end
event. -/
structure ListenersWF (s : ModalState) : Prop where
  sync : s.domListeners = s.registeredListeners
  nodup : (s.registeredListeners.map RegListener.id).Nodup
  bound : ∀ l ∈ s.registeredListeners, l.id < s.nextListenerId
  shape : ∀ l ∈ s.registeredListeners,
    UserOnly l.actions ∨ (l.type = "modalEnd" ∧ l.actions = [Action.cleanup])

/-- The registry contains the internal cleanup listener on the end event,
preceded only by wrapped caller-supplied groups. -/
def HasCleanup (s : ModalState) : Prop :=
  ∃ A B i, s.registeredListeners
      = A ++ (⟨i, "modalEnd", [Action.cleanup]⟩ : RegListener) :: B ∧
    ∀ l ∈ A, UserOnly l.actions

/-- Every registered listener wraps an array of caller-supplied functions
(no cleanup listener registered yet). -/
def AllUserReg (s : ModalState) : Prop :=
  ∀ l ∈ s.registeredListeners, UserOnly l.actions

/-- A state with an empty callback registry (as after construction or after
any `end`). -/
def Clean (s : ModalState) : Prop :=
  s.registeredListeners = [] ∧ s.domListeners = []

/-- A fresh instance state: empty registry, inactive, id counter at zero. -/
def Ready (s : ModalState) : Prop :=
  Clean s ∧ s.isActive = false ∧ s.nextListenerId = 0

/-- An operation an external caller can perform between `start` and `end`
of one invocation (other than ending the dialog). -/
inductive MidOp where
  | register (ty : String) (acts : List Nat)
  | invoke (ty : String)
  | setConfirm (v : JSVal)
  | setDecline (v : JSVal)
  deriving DecidableEq, Repr

/-- Apply one mid-invocation operation. -/
def applyMid (s : ModalState) : MidOp → ModalState
  | MidOp.register ty acts => registerActions s ty (uArr acts)
  | MidOp.invoke ty => invokeEvent s ty
  | MidOp.setConfirm v => setConfirmText s v
  | MidOp.setDecline v => setDeclineText s v

/-- Apply a sequence of mid-invocation operations. -/
def applyMids (s : ModalState) (mids : List MidOp) : ModalState :=
  mids.foldl applyMid s

/-- No operation of the sequence dispatches an event that ends the dialog:
neither the end event kind itself nor a click event, whose built-in root
listener runs `end()`. -/
def NoEndInvoke (mids : List MidOp) : Prop :=
  ∀ ty, MidOp.invoke ty ∈ mids → ty ≠ "modalEnd" ∧ ty ≠ "click"

/-- No operation of the sequence dispatches a click event (whose built-in
root listener runs `end()` and thereby clears the recorded focus target
early). -/
def NoClickInvoke (mids : List MidOp) : Prop :=
  ∀ ty, MidOp.invoke ty ∈ mids → ty ≠ "click"

/-- The focus bookkeeping relative to the element `a` focused before
`start`: either the recorded focus target still holds `a`, or the dialog has
already restored focus — the record is cleared and `a` holds focus.  Both
branches make a subsequent `end()` leave focus on `a`. -/
def FocusInv (a : Elem) (s : ModalState) : Prop :=
  s.preModalFocusTarget = some a ∨
    (s.preModalFocusTarget = none ∧ s.focusedElement = a)

/-- One public API call of a `ModalElement` instance. -/
inductive Op where
  | callStart (title description : String) (e c dc stt : JSArg)
  | callEnd
  | callRegisterActions (ty : String) (a : JSArg)
  | callInvokeEvent (ty : String)
  | readIsActive
  | writeConfirmText (v : JSVal)
  | writeDeclineText (v : JSVal)
  deriving DecidableEq, Repr

/-- Whether a public API call is a `start` call. -/
def isStartCall : Op → Bool
  | Op.callStart _ _ _ _ _ _ => true
  | _ => false

/-- Semantics of one public API call; a thrown exception is an
`Except.error`. -/
def stepOp (s : ModalState) : Op → Except String ModalState
  | Op.callStart t d e c dc stt => start s t d e c dc stt
  | Op.callEnd => Except.ok (endModal s)
  | Op.callRegisterActions ty a => Except.ok (registerActions s ty a)
  | Op.callInvokeEvent ty => Except.ok (invokeEvent s ty)
  | Op.readIsActive => Except.ok s
  | Op.writeConfirmText v => Except.ok (setConfirmText s v)
  | Op.writeDeclineText v => Except.ok (setDeclineText s v)

/-- An already-active instance state (used to witness the active-guard
error). -/
def activeState : ModalState :=
  { initialState with isActive := true }

/-- The state after a plain `start` on a fresh instance (used as a concrete
witness input). -/
def startedState : ModalState :=
  match start initialState "t" "d" JSArg.undef JSArg.undef JSArg.undef JSArg.undef with
  | Except.ok s => s
  | Except.error _ => initialState

/-- The state after `start` with one confirm action on a fresh instance
(first step of the C2 counterexample scenario). -/
def cexStarted : ModalState :=
  match start initialState "t" "d" JSArg.undef (uArr [7]) JSArg.undef JSArg.undef with
  | Except.ok s => s
  | Except.error _ => initialState

/-- The C2 counterexample state: during the invocation the end event is
dispatched manually (consuming the internal cleanup listener), a confirm
callback is then registered, and the dialog is ended. -/
def cexEnded : ModalState :=
  endModal (registerActions (invokeEvent cexStarted "modalEnd") "modalConfirm" (uArr [9]))

/-- The state after `start` with a `null` confirm group on a fresh instance
(the C5 counterexample input). -/
def nullConfirmStarted : ModalState :=
  match start initialState "t" "d" JSArg.undef JSArg.null JSArg.undef JSArg.undef with
  | Except.ok s => s
  | Except.error _ => initialState

/-- The state after `start` with the four groups `[1]`, `[2]`, `[3]`, `[4]`
on a fresh instance (used as a concrete witness input for the button
claims). -/
def fourGroupStarted : ModalState :=
  match start initialState "t" "d" (uArr [1]) (uArr [2]) (uArr [3]) (uArr [4]) with
  | Except.ok s => s
  | Except.error _ => initialState

@[simp] lemma registerActions_trace (s : ModalState) (ty : String) (a : JSArg) :
    (registerActions s ty a).trace = s.trace := by
  cases a <;> rfl

@[simp] lemma registerActions_isActive (s : ModalState) (ty : String) (a : JSArg) :
    (registerActions s ty a).isActive = s.isActive := by
  cases a <;> rfl

@[simp] lemma registerActions_focusedElement (s : ModalState) (ty : String) (a : JSArg) :
    (registerActions s ty a).focusedElement = s.focusedElement := by
  cases a <;> rfl

@[simp] lemma registerActions_preModalFocusTarget (s : ModalState) (ty : String) (a : JSArg) :
    (registerActions s ty a).preModalFocusTarget = s.preModalFocusTarget := by
  cases a <;> rfl

@[simp] lemma registerActions_confirmDisplay (s : ModalState) (ty : String) (a : JSArg) :
    (registerActions s ty a).confirmDisplay = s.confirmDisplay := by
  cases a <;> rfl

@[simp] lemma registerActions_declineDisplay (s : ModalState) (ty : String) (a : JSArg) :
    (registerActions s ty a).declineDisplay = s.declineDisplay := by
  cases a <;> rfl

@[simp] lemma registerActions_modalDisplay (s : ModalState) (ty : String) (a : JSArg) :
    (registerActions s ty a).modalDisplay = s.modalDisplay := by
  cases a <;> rfl

@[simp] lemma registerActions_confirmText (s : ModalState) (ty : String) (a : JSArg) :
    (registerActions s ty a).confirmText = s.confirmText := by
  cases a <;> rfl

@[simp] lemma registerActions_declineText (s : ModalState) (ty : String) (a : JSArg) :
    (registerActions s ty a).declineText = s.declineText := by
  cases a <;> rfl

@[simp] lemma registerActions_titleHTML (s : ModalState) (ty : String) (a : JSArg) :
    (registerActions s ty a).titleHTML = s.titleHTML := by
  cases a <;> rfl

@[simp] lemma registerActions_descriptionHTML (s : ModalState) (ty : String) (a : JSArg) :
    (registerActions s ty a).descriptionHTML = s.descriptionHTML := by
  cases a <;> rfl

lemma start_eq (s : ModalState) (t d : String) (e c dc stt : JSArg)
    (ha : s.isActive = false) :
    start s t d e c dc stt =
      Except.ok
        { invokeEvent (startPre s t d e c dc stt) "modalStart" with isActive := true } := by
  have hdef : start s t d e c dc stt =
      if s.isActive then Except.error startErrorMessage
      else
        Except.ok
          { invokeEvent (startPre s t d e c dc stt) "modalStart" with isActive := true } := rfl
  rw [hdef, if_neg (by simp [ha])]

lemma endModal_eq (s : ModalState) :
    endModal s = { invokeEventAux (endPre s) "modalEnd" with isActive := false } := rfl

lemma start_def (s : ModalState) (t d : String) (e c dc stt : JSArg) :
    start s t d e c dc stt =
      if s.isActive then Except.error startErrorMessage
      else
        Except.ok
          { invokeEvent (startPre s t d e c dc stt) "modalStart" with isActive := true } := rfl

lemma start_error_of_active {s : ModalState} {t d : String} {e c dc stt : JSArg}
    (ha : s.isActive = true) :
    start s t d e c dc stt = Except.error startErrorMessage := by
  rw [start_def, if_pos ha]

lemma start_ok_shape {s : ModalState} {t d : String} {e c dc stt : JSArg} {s1 : ModalState}
    (h : start s t d e c dc stt = Except.ok s1) :
    s.isActive = false ∧
      s1 = { invokeEvent (startPre s t d e c dc stt) "modalStart" with isActive := true } := by
  by_cases ha : s.isActive = true
  · rw [start_def, if_pos ha] at h
    exact absurd h (by simp)
  · have ha' : s.isActive = false := by simpa using ha
    rw [start_def, if_neg (by simp [ha'])] at h
    exact ⟨ha', ((Except.ok.injEq _ _).mp h).symm⟩

@[simp] lemma startPre_trace (s : ModalState) (t d : String) (e c dc stt : JSArg) :
    (startPre s t d e c dc stt).trace = s.trace := by
  simp [startPre]

@[simp] lemma startPre_isActive (s : ModalState) (t d : String) (e c dc stt : JSArg) :
    (startPre s t d e c dc stt).isActive = s.isActive := by
  simp [startPre]

@[simp] lemma startPre_preModalFocusTarget (s : ModalState) (t d : String)
    (e c dc stt : JSArg) :
    (startPre s t d e c dc stt).preModalFocusTarget = some s.focusedElement := by
  simp [startPre]

@[simp] lemma startPre_focusedElement (s : ModalState) (t d : String) (e c dc stt : JSArg) :
    (startPre s t d e c dc stt).focusedElement = Elem.mdContent := by
  simp [startPre]

@[simp] lemma startPre_confirmDisplay (s : ModalState) (t d : String) (e c dc stt : JSArg) :
    (startPre s t d e c dc stt).confirmDisplay
      = if c = JSArg.undef then none else some "block" := by
  cases c <;> simp [startPre]

@[simp] lemma startPre_declineDisplay (s : ModalState) (t d : String) (e c dc stt : JSArg) :
    (startPre s t d e c dc stt).declineDisplay
      = if dc = JSArg.undef then none else some "block" := by
  cases dc <;> simp [startPre]

@[simp] lemma endPre_trace (s : ModalState) : (endPre s).trace = s.trace := by
  cases h : s.preModalFocusTarget <;> simp [endPre, h]

@[simp] lemma endPre_isActive (s : ModalState) : (endPre s).isActive = s.isActive := by
  cases h : s.preModalFocusTarget <;> simp [endPre, h]

@[simp] lemma endPre_preModalFocusTarget (s : ModalState) :
    (endPre s).preModalFocusTarget = none := by
  cases h : s.preModalFocusTarget <;> simp [endPre, h]

@[simp] lemma endPre_registeredListeners (s : ModalState) :
    (endPre s).registeredListeners = s.registeredListeners := by
  cases h : s.preModalFocusTarget <;> simp [endPre, h]

@[simp] lemma endPre_domListeners (s : ModalState) :
    (endPre s).domListeners = s.domListeners := by
  cases h : s.preModalFocusTarget <;> simp [endPre, h]

@[simp] lemma endPre_nextListenerId (s : ModalState) :
    (endPre s).nextListenerId = s.nextListenerId := by
  cases h : s.preModalFocusTarget <;> simp [endPre, h]

lemma endPre_focusedElement_of_some (s : ModalState) (a : Elem)
    (h : s.preModalFocusTarget = some a) : (endPre s).focusedElement = a := by
  simp [endPre, h]

lemma pres_refl (s : ModalState) : Pres s s :=
  ⟨rfl, rfl, rfl, rfl, rfl, rfl, rfl, rfl, rfl, rfl, rfl⟩

lemma pres_trans {s t u : ModalState} (h1 : Pres s t) (h2 : Pres t u) : Pres s u :=
  ⟨h2.titleHTML.trans h1.titleHTML, h2.descriptionHTML.trans h1.descriptionHTML,
   h2.confirmText.trans h1.confirmText, h2.declineText.trans h1.declineText,
   h2.confirmDisplay.trans h1.confirmDisplay, h2.declineDisplay.trans h1.declineDisplay,
   h2.modalDisplay.trans h1.modalDisplay,
   h2.preModalFocusTarget.trans h1.preModalFocusTarget,
   h2.focusedElement.trans h1.focusedElement, h2.nextListenerId.trans h1.nextListenerId,
   h2.isActive.trans h1.isActive⟩

lemma ext_refl (s : ModalState) : Ext s s :=
  ⟨pres_refl s, [], (List.append_nil _).symm, by simp⟩

lemma ext_trans {s t u : ModalState} (h1 : Ext s t) (h2 : Ext t u) : Ext s u := by
  obtain ⟨p1, tr1, e1, a1⟩ := h1
  obtain ⟨p2, tr2, e2, a2⟩ := h2
  refine ⟨pres_trans p1 p2, tr1 ++ tr2, ?_, ?_⟩
  · rw [e2, e1, List.append_assoc]
  · intro p hp
    rcases List.mem_append.mp hp with h | h
    · exact a1 p h
    · rw [a2 p h, p1.isActive]

lemma runAction_ext (st : ModalState) (a : Action) : Ext st (runAction st a) := by
  cases a with
  | user i =>
      exact ⟨⟨rfl, rfl, rfl, rfl, rfl, rfl, rfl, rfl, rfl, rfl, rfl⟩,
        [(i, st.isActive)], rfl, by simp⟩
  | cleanup =>
      exact ⟨⟨rfl, rfl, rfl, rfl, rfl, rfl, rfl, rfl, rfl, rfl, rfl⟩,
        [], (List.append_nil _).symm, by simp⟩

lemma foldl_runAction_ext (acts : List Action) :
    ∀ st : ModalState, Ext st (acts.foldl runAction st) := by
  induction acts with
  | nil => exact fun st => ext_refl st
  | cons a as ih => exact fun st => ext_trans (runAction_ext st a) (ih (runAction st a))

lemma runListener_ext (st : ModalState) (l : RegListener) : Ext st (runListener st l) :=
  foldl_runAction_ext l.actions st

lemma dispatchStep_ext (acc : ModalState) (l : RegListener) : Ext acc (dispatchStep acc l) := by
  unfold dispatchStep
  split
  · exact runListener_ext acc l
  · exact ext_refl acc

lemma foldl_dispatchStep_ext (xs : List RegListener) :
    ∀ st : ModalState, Ext st (xs.foldl dispatchStep st) := by
  induction xs with
  | nil => exact fun st => ext_refl st
  | cons x rest ih => exact fun st => ext_trans (dispatchStep_ext st x) (ih (dispatchStep st x))

lemma dispatchDynamic_ext (s : ModalState) (ty : String) : Ext s (dispatchDynamic s ty) :=
  foldl_dispatchStep_ext _ s

lemma invokeEventAux_ext (s : ModalState) (ty : String) : Ext s (invokeEventAux s ty) :=
  ext_trans (dispatchDynamic_ext s ty)
    ⟨⟨rfl, rfl, rfl, rfl, rfl, rfl, rfl, rfl, rfl, rfl, rfl⟩,
     [], (List.append_nil _).symm, by simp⟩

lemma builtinClick_eq (s : ModalState) (ty : String) :
    builtinClick s ty = if ty == "click" then endModal s else s := rfl

lemma dispatchStep_eq (acc : ModalState) (l : RegListener) :
    dispatchStep acc l =
      if acc.domListeners.any (fun d => d.id == l.id) then runListener acc l else acc := rfl

lemma dispatchDynamic_eq (s : ModalState) (ty : String) :
    dispatchDynamic s ty
      = (s.domListeners.filter (fun l => l.type == ty)).foldl dispatchStep s := rfl

lemma dispatch_eq (s : ModalState) (ty : String) :
    dispatch s ty
      = (s.domListeners.filter (fun l => l.type == ty)).foldl dispatchStep
          (builtinClick s ty) := rfl

lemma invokeEventAux_eq (s : ModalState) (ty : String) :
    invokeEventAux s ty =
      { dispatchDynamic s ty with
        registeredListeners :=
          (dispatchDynamic s ty).registeredListeners.filter (fun l => !(l.type == ty)),
        domListeners :=
          (dispatchDynamic s ty).domListeners.filter
            (fun d => !(((dispatchDynamic s ty).registeredListeners.filter
              (fun l => l.type == ty)).any (fun r => r.id == d.id))) } := rfl

lemma invokeEvent_eq (s : ModalState) (ty : String) :
    invokeEvent s ty =
      { dispatch s ty with
        registeredListeners :=
          (dispatch s ty).registeredListeners.filter (fun l => !(l.type == ty)),
        domListeners :=
          (dispatch s ty).domListeners.filter
            (fun d => !(((dispatch s ty).registeredListeners.filter
              (fun l => l.type == ty)).any (fun r => r.id == d.id))) } := rfl

lemma invokeEvent_eq_aux (s : ModalState) (ty : String) (hty : (ty == "click") = false) :
    invokeEvent s ty = invokeEventAux s ty := by
  have hb : builtinClick s ty = s := by
    rw [builtinClick_eq]
    simp [hty]
  have hd : dispatch s ty = dispatchDynamic s ty := by
    rw [dispatch_eq, hb, dispatchDynamic_eq]
  rw [invokeEvent_eq, hd, invokeEventAux_eq]

lemma invokeEvent_ext_of_ne_click (s : ModalState) (ty : String)
    (hty : (ty == "click") = false) : Ext s (invokeEvent s ty) := by
  rw [invokeEvent_eq_aux s ty hty]
  exact invokeEventAux_ext s ty

lemma endModal_eq_full (s : ModalState) :
    endModal s = { invokeEvent (endPre s) "modalEnd" with isActive := false } := by
  rw [invokeEvent_eq_aux (endPre s) "modalEnd" (by decide)]
  exact endModal_eq s

/-- C1: calling `start` on an instance whose `isActive` flag is true throws
the already-active error.  The guard runs before any mutation, so in the
`Except` embedding the caller's state is untouched: the title and
description markup, the callback registry, the button visibility, the
recorded focus target and `isActive` are all exactly as before the failed
call. -/
theorem start_already_active_error (s : ModalState) (t d : String) (e c dc stt : JSArg)
    (h : s.isActive = true) :
    start s t d e c dc stt = Except.error startErrorMessage :=
  start_error_of_active h

theorem start_already_active_error_witness :
    start activeState "a" "b" JSArg.undef JSArg.undef JSArg.undef JSArg.undef
      = Except.error startErrorMessage :=
  start_already_active_error activeState "a" "b" JSArg.undef JSArg.undef JSArg.undef
    JSArg.undef rfl

/-- C3: after a successful `start` call the `isActive` getter returns true,
and after `end()` it returns false. -/
theorem isActive_true_after_start_false_after_end :
    (∀ (s : ModalState) (t d : String) (e c dc stt : JSArg) (s1 : ModalState),
      start s t d e c dc stt = Except.ok s1 → s1.isActive = true) ∧
    ∀ s : ModalState, (endModal s).isActive = false := by
  constructor
  · intro s t d e c dc stt s1 h
    obtain ⟨-, rfl⟩ := start_ok_shape h
    rfl
  · intro s
    rfl

theorem isActive_true_after_start_false_after_end_witness :
    startedState.isActive = true ∧ (endModal startedState).isActive = false :=
  ⟨isActive_true_after_start_false_after_end.1 initialState "t" "d" JSArg.undef JSArg.undef
      JSArg.undef JSArg.undef startedState rfl,
   isActive_true_after_start_false_after_end.2 startedState⟩

/-- C7 counterexample: the claim quantifies over every string value, but
assigning the empty string to `confirmText` does not set the label to the
empty string — the setter's truthiness check routes it to the default
"Ok". -/
theorem empty_confirmText_counterexample :
    (setConfirmText initialState (JSVal.str "")).confirmText = "Ok" ∧
    (setConfirmText initialState (JSVal.str "")).confirmText ≠ "" := by
  exact ⟨rfl, by decide⟩

/-- C7 amended: for every nonempty string `s`, assigning `s` to
`confirmText` sets the confirm button's label to `s`, and assigning a
nullish value — or the empty string, which the truthiness check treats the
same way — resets the label to the default "Ok"; symmetrically `declineText`
sets the decline button's label with default "Decline". -/
theorem label_setters_set_nonempty_and_reset_nullish (st : ModalState) :
    (∀ s : String, s ≠ "" →
      (setConfirmText st (JSVal.str s)).confirmText = s ∧
      (setDeclineText st (JSVal.str s)).declineText = s) ∧
    (setConfirmText st JSVal.null).confirmText = DEFAULT_CONFIRM_TEXT ∧
    (setConfirmText st JSVal.undef).confirmText = DEFAULT_CONFIRM_TEXT ∧
    (setConfirmText st (JSVal.str "")).confirmText = DEFAULT_CONFIRM_TEXT ∧
    (setDeclineText st JSVal.null).declineText = DEFAULT_DECLINE_TEXT ∧
    (setDeclineText st JSVal.undef).declineText = DEFAULT_DECLINE_TEXT ∧
    (setDeclineText st (JSVal.str "")).declineText = DEFAULT_DECLINE_TEXT := by
  refine ⟨fun s hs => ⟨?_, ?_⟩, rfl, rfl, by simp [setConfirmText, truthy], rfl, rfl,
    by simp [setDeclineText, truthy]⟩
  · simp [setConfirmText, truthy, jsStrVal, hs]
  · simp [setDeclineText, truthy, jsStrVal, hs]

theorem label_setters_set_nonempty_and_reset_nullish_witness :
    (setConfirmText initialState (JSVal.str "Yes")).confirmText = "Yes" :=
  (((label_setters_set_nonempty_and_reset_nullish initialState).1 "Yes") (by decide)).1

/-- C10: assigning the empty string (the falsy non-nullish string value) to
`confirmText` or `declineText` behaves exactly like assigning a nullish
value — the label resets to its default — and no value passed to either
setter can ever make the stored label empty. -/
theorem empty_string_resets_labels (st : ModalState) :
    setConfirmText st (JSVal.str "") = setConfirmText st JSVal.null ∧
    setDeclineText st (JSVal.str "") = setDeclineText st JSVal.null ∧
    (setConfirmText st (JSVal.str "")).confirmText = DEFAULT_CONFIRM_TEXT ∧
    (setDeclineText st (JSVal.str "")).declineText = DEFAULT_DECLINE_TEXT ∧
    (∀ v : JSVal, (setConfirmText st v).confirmText ≠ "") ∧
    (∀ v : JSVal, (setDeclineText st v).declineText ≠ "") := by
  refine ⟨by simp [setConfirmText, truthy], by simp [setDeclineText, truthy],
    by simp [setConfirmText, truthy], by simp [setDeclineText, truthy], ?_, ?_⟩
  · intro v
    cases v with
    | str s =>
        by_cases h : s = ""
        · subst h
          simp [setConfirmText, truthy, DEFAULT_CONFIRM_TEXT]
        · simp [setConfirmText, truthy, jsStrVal, h]
    | null => simp [setConfirmText, truthy, DEFAULT_CONFIRM_TEXT]
    | undef => simp [setConfirmText, truthy, DEFAULT_CONFIRM_TEXT]
  · intro v
    cases v with
    | str s =>
        by_cases h : s = ""
        · subst h
          simp [setDeclineText, truthy, DEFAULT_DECLINE_TEXT]
        · simp [setDeclineText, truthy, jsStrVal, h]
    | null => simp [setDeclineText, truthy, DEFAULT_DECLINE_TEXT]
    | undef => simp [setDeclineText, truthy, DEFAULT_DECLINE_TEXT]

/-- C8: every public operation other than `start` is total — `end`,
`registerActions` (for any event kind and any argument), `invokeEvent`, the
`isActive` getter and the two label setters always produce a successor
state and never throw — and `registerActions` with a nullish argument is a
no-op that registers nothing. -/
theorem public_operations_total :
    (∀ (s : ModalState) (op : Op), isStartCall op = false →
      ∃ s2, stepOp s op = Except.ok s2) ∧
    ∀ (s : ModalState) (ty : String),
      registerActions s ty JSArg.null = s ∧ registerActions s ty JSArg.undef = s := by
  constructor
  · intro s op h
    cases op with
    | callStart t d e c dc stt => exact absurd h (by simp [isStartCall])
    | callEnd => exact ⟨_, rfl⟩
    | callRegisterActions ty a => exact ⟨_, rfl⟩
    | callInvokeEvent ty => exact ⟨_, rfl⟩
    | readIsActive => exact ⟨_, rfl⟩
    | writeConfirmText v => exact ⟨_, rfl⟩
    | writeDeclineText v => exact ⟨_, rfl⟩
  · intro s ty
    exact ⟨rfl, rfl⟩

theorem public_operations_total_witness :
    ∃ s2, stepOp initialState Op.callEnd = Except.ok s2 :=
  public_operations_total.1 initialState Op.callEnd rfl

/-- C9: `isActive` flips only after event dispatch, so callbacks observe the
pre-transition value: every entry traced during `start` (the start-event
callbacks) observed `isActive = false`, and, for an active instance, every
entry traced during `end()` (the end-event callbacks) observed
`isActive = true`. -/
theorem callbacks_observe_pretransition_isActive :
    (∀ (s : ModalState) (t d : String) (e c dc stt : JSArg) (s1 : ModalState),
      start s t d e c dc stt = Except.ok s1 →
      ∃ tr, s1.trace = s.trace ++ tr ∧ ∀ p ∈ tr, p.2 = false) ∧
    ∀ s : ModalState, s.isActive = true →
      ∃ tr, (endModal s).trace = s.trace ++ tr ∧ ∀ p ∈ tr, p.2 = true := by
  constructor
  · intro s t d e c dc stt s1 h
    obtain ⟨ha, rfl⟩ := start_ok_shape h
    obtain ⟨pres, tr, htr, htag⟩ := invokeEventAux_ext (startPre s t d e c dc stt) "modalStart"
    refine ⟨tr, ?_, ?_⟩
    · show (invokeEvent (startPre s t d e c dc stt) "modalStart").trace = s.trace ++ tr
      rw [invokeEvent_eq_aux _ _ (by decide), htr, startPre_trace]
    · intro p hp
      have hv := htag p hp
      rwa [startPre_isActive, ha] at hv
  · intro s hs
    obtain ⟨pres, tr, htr, htag⟩ := invokeEventAux_ext (endPre s) "modalEnd"
    refine ⟨tr, ?_, ?_⟩
    · show (invokeEventAux (endPre s) "modalEnd").trace = s.trace ++ tr
      rw [htr, endPre_trace]
    · intro p hp
      have hv := htag p hp
      rwa [endPre_isActive, hs] at hv

theorem callbacks_observe_pretransition_isActive_witness :
    ∃ tr, (endModal activeState).trace = activeState.trace ++ tr ∧ ∀ p ∈ tr, p.2 = true :=
  callbacks_observe_pretransition_isActive.2 activeState rfl

@[simp] lemma setConfirmText_preModalFocusTarget (st : ModalState) (v : JSVal) :
    (setConfirmText st v).preModalFocusTarget = st.preModalFocusTarget := by
  by_cases h : truthy v = true <;> simp [setConfirmText, h]

@[simp] lemma setConfirmText_focusedElement (st : ModalState) (v : JSVal) :
    (setConfirmText st v).focusedElement = st.focusedElement := by
  by_cases h : truthy v = true <;> simp [setConfirmText, h]

@[simp] lemma setDeclineText_preModalFocusTarget (st : ModalState) (v : JSVal) :
    (setDeclineText st v).preModalFocusTarget = st.preModalFocusTarget := by
  by_cases h : truthy v = true <;> simp [setDeclineText, h]

@[simp] lemma setDeclineText_focusedElement (st : ModalState) (v : JSVal) :
    (setDeclineText st v).focusedElement = st.focusedElement := by
  by_cases h : truthy v = true <;> simp [setDeclineText, h]

lemma endPre_focusedElement_of_none (s : ModalState)
    (h : s.preModalFocusTarget = none) : (endPre s).focusedElement = s.focusedElement := by
  simp [endPre, h]

@[simp] lemma endPre_modalDisplay (s : ModalState) : (endPre s).modalDisplay = none := by
  cases h : s.preModalFocusTarget <;> simp [endPre, h]

lemma endModal_preModalFocusTarget (s : ModalState) :
    (endModal s).preModalFocusTarget = none := by
  show (invokeEventAux (endPre s) "modalEnd").preModalFocusTarget = none
  rw [(invokeEventAux_ext _ _).pres.preModalFocusTarget, endPre_preModalFocusTarget]

lemma endModal_modalDisplay (s : ModalState) : (endModal s).modalDisplay = none := by
  show (invokeEventAux (endPre s) "modalEnd").modalDisplay = none
  rw [(invokeEventAux_ext _ _).pres.modalDisplay, endPre_modalDisplay]

lemma focusInv_of_fields (a : Elem) {s t : ModalState}
    (hp : t.preModalFocusTarget = s.preModalFocusTarget)
    (hf : t.focusedElement = s.focusedElement) (h : FocusInv a s) : FocusInv a t := by
  rcases h with h | ⟨h1, h2⟩
  · exact Or.inl (hp.trans h)
  · exact Or.inr ⟨hp.trans h1, hf.trans h2⟩

lemma endModal_focus_of_inv (a : Elem) (s : ModalState) (h : FocusInv a s) :
    (endModal s).focusedElement = a ∧ FocusInv a (endModal s) := by
  have hfoc : (endModal s).focusedElement = (endPre s).focusedElement := by
    show (invokeEventAux (endPre s) "modalEnd").focusedElement = _
    exact (invokeEventAux_ext _ _).pres.focusedElement
  have hpre : (endModal s).preModalFocusTarget = none := endModal_preModalFocusTarget s
  rcases h with h | ⟨h1, h2⟩
  · have he : (endPre s).focusedElement = a := endPre_focusedElement_of_some s a h
    exact ⟨hfoc.trans he, Or.inr ⟨hpre, hfoc.trans he⟩⟩
  · have he : (endPre s).focusedElement = a := (endPre_focusedElement_of_none s h1).trans h2
    exact ⟨hfoc.trans he, Or.inr ⟨hpre, hfoc.trans he⟩⟩

lemma invokeEvent_pre_focus (s : ModalState) (ty : String) :
    (invokeEvent s ty).preModalFocusTarget = (builtinClick s ty).preModalFocusTarget ∧
    (invokeEvent s ty).focusedElement = (builtinClick s ty).focusedElement := by
  have hext := foldl_dispatchStep_ext
    (s.domListeners.filter (fun l => l.type == ty)) (builtinClick s ty)
  exact ⟨hext.pres.preModalFocusTarget, hext.pres.focusedElement⟩

lemma focusInv_applyMid (a : Elem) (s : ModalState) (op : MidOp) (h : FocusInv a s) :
    FocusInv a (applyMid s op) := by
  cases op with
  | register ty acts => exact focusInv_of_fields a (by simp [applyMid]) (by simp [applyMid]) h
  | invoke ty =>
      obtain ⟨hp, hf⟩ := invokeEvent_pre_focus s ty
      have hb : FocusInv a (builtinClick s ty) := by
        rw [builtinClick_eq]
        split
        · exact (endModal_focus_of_inv a s h).2
        · exact h
      exact focusInv_of_fields a hp hf hb
  | setConfirm v => exact focusInv_of_fields a (by simp [applyMid]) (by simp [applyMid]) h
  | setDecline v => exact focusInv_of_fields a (by simp [applyMid]) (by simp [applyMid]) h

lemma focusInv_applyMids (a : Elem) (mids : List MidOp) :
    ∀ s : ModalState, FocusInv a s → FocusInv a (applyMids s mids) := by
  induction mids with
  | nil => exact fun _ h => h
  | cons op rest ih => exact fun s h => ih (applyMid s op) (focusInv_applyMid a s op h)

lemma applyMid_focus (s : ModalState) (op : MidOp)
    (hop : ∀ ty2, op = MidOp.invoke ty2 → ty2 ≠ "click") :
    (applyMid s op).preModalFocusTarget = s.preModalFocusTarget ∧
    (applyMid s op).focusedElement = s.focusedElement := by
  cases op with
  | register ty acts => simp [applyMid]
  | invoke ty =>
      have hty : (ty == "click") = false := beq_eq_false_iff_ne.mpr (hop ty rfl)
      have hext := invokeEvent_ext_of_ne_click s ty hty
      exact ⟨hext.pres.preModalFocusTarget, hext.pres.focusedElement⟩
  | setConfirm v => simp [applyMid]
  | setDecline v => simp [applyMid]

lemma applyMids_focus (mids : List MidOp) :
    ∀ s : ModalState, NoClickInvoke mids →
      (applyMids s mids).preModalFocusTarget = s.preModalFocusTarget ∧
      (applyMids s mids).focusedElement = s.focusedElement := by
  induction mids with
  | nil => exact fun _ _ => ⟨rfl, rfl⟩
  | cons op rest ih =>
      intro s hnc
      have hop : ∀ ty2, op = MidOp.invoke ty2 → ty2 ≠ "click" := by
        intro ty2 heq
        refine hnc ty2 ?_
        rw [← heq]
        exact List.mem_cons_self op rest
      obtain ⟨h1, h2⟩ := applyMid_focus s op hop
      obtain ⟨h3, h4⟩ := ih (applyMid s op)
        (fun ty2 hm => hnc ty2 (List.mem_cons_of_mem op hm))
      exact ⟨h3.trans h1, h4.trans h2⟩

/-- C6: if an element holds focus immediately before `start`, then — with no
focus changes during the invocation beyond those the dialog performs itself
(any sequence of register/invoke/setter calls may happen in between) — after
`end()` that element holds focus again.  The recorded focus target is only
read for restoration: it still holds the recorded element after any sequence
of operations that does not itself end the dialog (a click-typed dispatch
runs the built-in handler, i.e. `end()`, which performs the restoration
early and clears the record — and focus still returns to the recorded
element). -/
theorem focus_restored_after_end :
    ∀ (s : ModalState) (t d : String) (e c dc stt : JSArg) (s1 : ModalState)
      (mids : List MidOp),
      start s t d e c dc stt = Except.ok s1 →
      s1.preModalFocusTarget = some s.focusedElement ∧
      (NoClickInvoke mids →
        (applyMids s1 mids).preModalFocusTarget = some s.focusedElement) ∧
      (endModal (applyMids s1 mids)).focusedElement = s.focusedElement := by
  intro s t d e c dc stt s1 mids h
  obtain ⟨ha, rfl⟩ := start_ok_shape h
  have h1 : ({ invokeEvent (startPre s t d e c dc stt) "modalStart" with
      isActive := true } : ModalState).preModalFocusTarget = some s.focusedElement := by
    show (invokeEvent (startPre s t d e c dc stt) "modalStart").preModalFocusTarget
      = some s.focusedElement
    rw [invokeEvent_eq_aux _ _ (by decide),
      (invokeEventAux_ext _ _).pres.preModalFocusTarget, startPre_preModalFocusTarget]
  refine ⟨h1, ?_, ?_⟩
  · intro hnc
    obtain ⟨h2, -⟩ := applyMids_focus mids
      { invokeEvent (startPre s t d e c dc stt) "modalStart" with isActive := true } hnc
    exact h2.trans h1
  · have hinv : FocusInv s.focusedElement
        ({ invokeEvent (startPre s t d e c dc stt) "modalStart" with
          isActive := true } : ModalState) := Or.inl h1
    exact (endModal_focus_of_inv _ _ (focusInv_applyMids _ mids _ hinv)).1

theorem focus_restored_after_end_witness :
    startedState.preModalFocusTarget = some (Elem.page 0) ∧
    (endModal (applyMids startedState [])).focusedElement = Elem.page 0 :=
  ⟨(focus_restored_after_end initialState "t" "d" JSArg.undef JSArg.undef JSArg.undef
      JSArg.undef startedState [] rfl).1,
   (focus_restored_after_end initialState "t" "d" JSArg.undef JSArg.undef JSArg.undef
      JSArg.undef startedState [] rfl).2.2⟩

lemma registerActions_arr (s : ModalState) (ty : String) (acts : List Action) :
    registerActions s ty (JSArg.arr acts) =
      { s with
        registeredListeners := s.registeredListeners ++ [⟨s.nextListenerId, ty, acts⟩],
        domListeners := s.domListeners ++ [⟨s.nextListenerId, ty, acts⟩],
        nextListenerId := s.nextListenerId + 1 } := rfl

lemma userOnly_map_user (l : List Nat) : UserOnly (l.map Action.user) := by
  intro h
  obtain ⟨i, -, hi⟩ := List.mem_map.mp h
  exact absurd hi (by simp)

lemma safeArg_toArg (o : Option (List Nat)) : SafeArg (toArg o) := by
  cases o with
  | none => trivial
  | some l => exact userOnly_map_user l

lemma runAction_lists_of_ne_cleanup (st : ModalState) (a : Action) (h : a ≠ Action.cleanup) :
    (runAction st a).registeredListeners = st.registeredListeners ∧
    (runAction st a).domListeners = st.domListeners := by
  cases a with
  | user i => exact ⟨rfl, rfl⟩
  | cleanup => exact absurd rfl h

lemma foldl_runAction_lists_of_userOnly (acts : List Action) :
    ∀ st : ModalState, UserOnly acts →
      (acts.foldl runAction st).registeredListeners = st.registeredListeners ∧
      (acts.foldl runAction st).domListeners = st.domListeners := by
  induction acts with
  | nil => exact fun st _ => ⟨rfl, rfl⟩
  | cons a as ih =>
      intro st hu
      have ha : a ≠ Action.cleanup := by
        intro hc
        apply hu
        rw [← hc]
        exact List.mem_cons_self a as
      obtain ⟨h1, h2⟩ := runAction_lists_of_ne_cleanup st a ha
      obtain ⟨h3, h4⟩ := ih (runAction st a) (fun hm => hu (List.mem_cons_of_mem a hm))
      exact ⟨h3.trans h1, h4.trans h2⟩

lemma runListener_lists_of_userOnly (st : ModalState) (l : RegListener)
    (h : UserOnly l.actions) :
    (runListener st l).registeredListeners = st.registeredListeners ∧
    (runListener st l).domListeners = st.domListeners :=
  foldl_runAction_lists_of_userOnly l.actions st h

lemma dispatchStep_lists_of_userOnly (acc : ModalState) (l : RegListener)
    (h : UserOnly l.actions) :
    (dispatchStep acc l).registeredListeners = acc.registeredListeners ∧
    (dispatchStep acc l).domListeners = acc.domListeners := by
  rw [dispatchStep_eq]
  by_cases hb : acc.domListeners.any (fun d => d.id == l.id) = true
  · rw [if_pos hb]
    exact runListener_lists_of_userOnly acc l h
  · rw [if_neg hb]
    exact ⟨rfl, rfl⟩

lemma foldl_dispatchStep_lists_of_userOnly (xs : List RegListener) :
    ∀ acc : ModalState, (∀ l ∈ xs, UserOnly l.actions) →
      (xs.foldl dispatchStep acc).registeredListeners = acc.registeredListeners ∧
      (xs.foldl dispatchStep acc).domListeners = acc.domListeners := by
  induction xs with
  | nil => exact fun acc _ => ⟨rfl, rfl⟩
  | cons x rest ih =>
      intro acc hx
      obtain ⟨h1, h2⟩ := dispatchStep_lists_of_userOnly acc x (hx x (List.mem_cons_self x rest))
      obtain ⟨h3, h4⟩ := ih (dispatchStep acc x) (fun l hl => hx l (List.mem_cons_of_mem x hl))
      exact ⟨h3.trans h1, h4.trans h2⟩

lemma foldl_dispatchStep_of_empty_dom (xs : List RegListener) :
    ∀ acc : ModalState, acc.domListeners = [] → xs.foldl dispatchStep acc = acc := by
  induction xs with
  | nil => intro acc _; rfl
  | cons x rest ih =>
      intro acc h
      have hstep : dispatchStep acc x = acc := by
        rw [dispatchStep_eq, h]
        simp
      rw [List.foldl_cons, hstep]
      exact ih acc h

lemma wf_of_lists_eq (s t : ModalState)
    (hreg : t.registeredListeners = s.registeredListeners)
    (hdom : t.domListeners = s.domListeners)
    (hnext : t.nextListenerId = s.nextListenerId)
    (hwf : ListenersWF s) : ListenersWF t := by
  refine ⟨?_, ?_, ?_, ?_⟩
  · rw [hdom, hreg]
    exact hwf.sync
  · rw [hreg]
    exact hwf.nodup
  · rw [hreg, hnext]
    exact hwf.bound
  · rw [hreg]
    exact hwf.shape

lemma hc_of_reg_eq (s t : ModalState)
    (hreg : t.registeredListeners = s.registeredListeners)
    (hc : HasCleanup s) : HasCleanup t := by
  obtain ⟨A, B, i, h1, h2⟩ := hc
  exact ⟨A, B, i, hreg.trans h1, h2⟩

lemma clean_wf (s : ModalState) (h : Clean s) : ListenersWF s := by
  obtain ⟨h1, h2⟩ := h
  refine ⟨h2.trans h1.symm, ?_, ?_, ?_⟩
  · rw [h1]
    exact List.nodup_nil
  · rw [h1]
    intro l hl
    exact absurd hl (List.not_mem_nil l)
  · rw [h1]
    intro l hl
    exact absurd hl (List.not_mem_nil l)

lemma clean_allUser (s : ModalState) (h : Clean s) : AllUserReg s := by
  intro l hl
  rw [h.1] at hl
  exact absurd hl (List.not_mem_nil l)

lemma wf_registerActions (s : ModalState) (ty : String) (acts : List Action)
    (hwf : ListenersWF s)
    (hshape : UserOnly acts ∨ (ty = "modalEnd" ∧ acts = [Action.cleanup])) :
    ListenersWF (registerActions s ty (JSArg.arr acts)) := by
  rw [registerActions_arr]
  refine ⟨?_, ?_, ?_, ?_⟩
  · show s.domListeners ++ _ = s.registeredListeners ++ _
    rw [hwf.sync]
  · show ((s.registeredListeners
        ++ [(⟨s.nextListenerId, ty, acts⟩ : RegListener)]).map RegListener.id).Nodup
    rw [List.map_append, List.nodup_append]
    refine ⟨hwf.nodup, List.nodup_singleton _, ?_⟩
    intro a ha hb
    obtain ⟨l, hl, rfl⟩ := List.mem_map.mp ha
    have hmem : l.id ∈ [s.nextListenerId] := hb
    have heq : l.id = s.nextListenerId := List.mem_singleton.mp hmem
    exact absurd (heq ▸ hwf.bound l hl) (Nat.lt_irrefl _)
  · intro l hl
    rcases List.mem_append.mp hl with h | h
    · exact Nat.lt_succ_of_lt (hwf.bound l h)
    · rw [List.mem_singleton.mp h]
      exact Nat.lt_succ_self _
  · intro l hl
    rcases List.mem_append.mp hl with h | h
    · exact hwf.shape l h
    · rw [List.mem_singleton.mp h]
      exact hshape

lemma wf_registerActions_any (s : ModalState) (ty : String) (a : JSArg)
    (hwf : ListenersWF s) (hsafe : SafeArg a) :
    ListenersWF (registerActions s ty a) := by
  cases a with
  | undef => exact hwf
  | null => exact hwf
  | arr acts => exact wf_registerActions s ty acts hwf (Or.inl hsafe)

lemma allUser_registerActions_safe (s : ModalState) (ty : String) (a : JSArg)
    (hall : AllUserReg s) (hsafe : SafeArg a) :
    AllUserReg (registerActions s ty a) := by
  cases a with
  | undef => exact hall
  | null => exact hall
  | arr acts =>
      intro l hl
      rcases List.mem_append.mp hl with h | h
      · exact hall l h
      · rw [List.mem_singleton.mp h]
        exact hsafe

lemma mem_registerActions (s : ModalState) (ty : String) (a : JSArg) (l : RegListener)
    (h : l ∈ s.registeredListeners) :
    l ∈ (registerActions s ty a).registeredListeners := by
  cases a with
  | undef => exact h
  | null => exact h
  | arr acts => exact List.mem_append.mpr (Or.inl h)

lemma self_mem_registerActions (s : ModalState) (ty : String) (acts : List Action) :
    (⟨s.nextListenerId, ty, acts⟩ : RegListener)
      ∈ (registerActions s ty (JSArg.arr acts)).registeredListeners :=
  List.mem_append.mpr (Or.inr (List.mem_singleton.mpr rfl))

lemma hasCleanup_registerActions (s : ModalState) (ty : String) (a : JSArg)
    (hc : HasCleanup s) : HasCleanup (registerActions s ty a) := by
  cases a with
  | undef => exact hc
  | null => exact hc
  | arr acts =>
      obtain ⟨A, B, i, h1, h2⟩ := hc
      refine ⟨A, B ++ [⟨s.nextListenerId, ty, acts⟩], i, ?_, h2⟩
      show s.registeredListeners ++ _ = _
      rw [h1]
      simp [List.append_assoc]

lemma hasCleanup_register_cleanup (s : ModalState) (hall : AllUserReg s) :
    HasCleanup (registerActions s "modalEnd" (JSArg.arr [Action.cleanup])) :=
  ⟨s.registeredListeners, [], s.nextListenerId, rfl, hall⟩

@[simp] lemma setConfirmText_registeredListeners (st : ModalState) (v : JSVal) :
    (setConfirmText st v).registeredListeners = st.registeredListeners := by
  by_cases h : truthy v = true <;> simp [setConfirmText, h]

@[simp] lemma setConfirmText_domListeners (st : ModalState) (v : JSVal) :
    (setConfirmText st v).domListeners = st.domListeners := by
  by_cases h : truthy v = true <;> simp [setConfirmText, h]

@[simp] lemma setConfirmText_nextListenerId (st : ModalState) (v : JSVal) :
    (setConfirmText st v).nextListenerId = st.nextListenerId := by
  by_cases h : truthy v = true <;> simp [setConfirmText, h]

@[simp] lemma setDeclineText_registeredListeners (st : ModalState) (v : JSVal) :
    (setDeclineText st v).registeredListeners = st.registeredListeners := by
  by_cases h : truthy v = true <;> simp [setDeclineText, h]

@[simp] lemma setDeclineText_domListeners (st : ModalState) (v : JSVal) :
    (setDeclineText st v).domListeners = st.domListeners := by
  by_cases h : truthy v = true <;> simp [setDeclineText, h]

@[simp] lemma setDeclineText_nextListenerId (st : ModalState) (v : JSVal) :
    (setDeclineText st v).nextListenerId = st.nextListenerId := by
  by_cases h : truthy v = true <;> simp [setDeclineText, h]

lemma invokeEventAux_reg_dom_of_wf (s : ModalState) (ty : String)
    (hwf : ListenersWF s) (hty : ty ≠ "modalEnd") :
    (invokeEventAux s ty).registeredListeners
        = s.registeredListeners.filter (fun l => !(l.type == ty)) ∧
    (invokeEventAux s ty).domListeners
        = s.registeredListeners.filter (fun l => !(l.type == ty)) := by
  have hsnap : ∀ l ∈ s.domListeners.filter (fun l => l.type == ty), UserOnly l.actions := by
    intro l hl
    obtain ⟨hmem, htyl⟩ := List.mem_filter.mp hl
    have hmem2 : l ∈ s.registeredListeners := by
      rw [← hwf.sync]
      exact hmem
    rcases hwf.shape l hmem2 with h | ⟨hEnd, -⟩
    · exact h
    · exfalso
      apply hty
      have hlt : l.type = ty := by simpa using htyl
      exact hlt.symm.trans hEnd
  obtain ⟨hr, hd⟩ := foldl_dispatchStep_lists_of_userOnly
    (s.domListeners.filter (fun l => l.type == ty)) s hsnap
  have hr1 : (dispatchDynamic s ty).registeredListeners = s.registeredListeners := hr
  have hd1 : (dispatchDynamic s ty).domListeners = s.registeredListeners := by
    rw [dispatchDynamic_eq]
    exact hd.trans hwf.sync
  constructor
  · rw [invokeEventAux_eq]
    show (dispatchDynamic s ty).registeredListeners.filter _ = _
    rw [hr1]
  · rw [invokeEventAux_eq]
    show (dispatchDynamic s ty).domListeners.filter _ = _
    rw [hd1, hr1]
    apply List.filter_congr
    intro x hx
    have hany : ((s.registeredListeners.filter (fun l => l.type == ty)).any
        (fun r => r.id == x.id)) = (x.type == ty) := by
      by_cases hcase : x.type = ty
      · rw [show (x.type == ty) = true from by simp [hcase]]
        exact List.any_eq_true.mpr
          ⟨x, List.mem_filter.mpr ⟨hx, by simp [hcase]⟩, by simp⟩
      · rw [show (x.type == ty) = false from by simp [hcase]]
        cases hb : ((s.registeredListeners.filter (fun l => l.type == ty)).any
            (fun r => r.id == x.id)) with
        | false => rfl
        | true =>
            exfalso
            obtain ⟨r, hrmem, hrid⟩ := List.any_eq_true.mp hb
            obtain ⟨hrreg, hrty⟩ := List.mem_filter.mp hrmem
            have hid : r.id = x.id := by simpa using hrid
            have hrx : r = x := List.inj_on_of_nodup_map hwf.nodup hrreg hx hid
            apply hcase
            rw [← hrx]
            simpa using hrty
    rw [hany]

lemma wf_invokeEventAux (s : ModalState) (ty : String)
    (hwf : ListenersWF s) (hty : ty ≠ "modalEnd") :
    ListenersWF (invokeEventAux s ty) := by
  obtain ⟨hr, hd⟩ := invokeEventAux_reg_dom_of_wf s ty hwf hty
  refine ⟨hd.trans hr.symm, ?_, ?_, ?_⟩
  · rw [hr]
    exact hwf.nodup.sublist ((List.filter_sublist _).map RegListener.id)
  · rw [hr, (invokeEventAux_ext s ty).pres.nextListenerId]
    intro l hl
    exact hwf.bound l (List.mem_of_mem_filter hl)
  · rw [hr]
    intro l hl
    exact hwf.shape l (List.mem_of_mem_filter hl)

lemma hasCleanup_invokeEventAux (s : ModalState) (ty : String)
    (hwf : ListenersWF s) (hc : HasCleanup s) (hty : ty ≠ "modalEnd") :
    HasCleanup (invokeEventAux s ty) := by
  obtain ⟨A, B, i, h1, h2⟩ := hc
  obtain ⟨hr, -⟩ := invokeEventAux_reg_dom_of_wf s ty hwf hty
  refine ⟨A.filter (fun l => !(l.type == ty)), B.filter (fun l => !(l.type == ty)), i, ?_, ?_⟩
  · rw [hr, h1, List.filter_append, List.filter_cons]
    rw [if_pos (show (!((⟨i, "modalEnd", [Action.cleanup]⟩ : RegListener).type == ty)) = true
      from by simp [Ne.symm hty])]
  · intro l hl
    exact h2 l (List.mem_of_mem_filter hl)

lemma invokeEvent_reg_dom_of_wf (s : ModalState) (ty : String)
    (hwf : ListenersWF s) (hty : ty ≠ "modalEnd") (hclick : (ty == "click") = false) :
    (invokeEvent s ty).registeredListeners
        = s.registeredListeners.filter (fun l => !(l.type == ty)) ∧
    (invokeEvent s ty).domListeners
        = s.registeredListeners.filter (fun l => !(l.type == ty)) := by
  rw [invokeEvent_eq_aux s ty hclick]
  exact invokeEventAux_reg_dom_of_wf s ty hwf hty

lemma wf_invokeEvent (s : ModalState) (ty : String)
    (hwf : ListenersWF s) (hty : ty ≠ "modalEnd") (hclick : (ty == "click") = false) :
    ListenersWF (invokeEvent s ty) := by
  rw [invokeEvent_eq_aux s ty hclick]
  exact wf_invokeEventAux s ty hwf hty

lemma hasCleanup_invokeEvent (s : ModalState) (ty : String)
    (hwf : ListenersWF s) (hc : HasCleanup s) (hty : ty ≠ "modalEnd")
    (hclick : (ty == "click") = false) :
    HasCleanup (invokeEvent s ty) := by
  rw [invokeEvent_eq_aux s ty hclick]
  exact hasCleanup_invokeEventAux s ty hwf hc hty

lemma cleanup_runListener (acc : ModalState) (i : Nat)
    (hsync : acc.domListeners = acc.registeredListeners) :
    (runListener acc ⟨i, "modalEnd", [Action.cleanup]⟩).registeredListeners = [] ∧
    (runListener acc ⟨i, "modalEnd", [Action.cleanup]⟩).domListeners = [] := by
  refine ⟨rfl, ?_⟩
  show acc.domListeners.filter
    (fun d => !(acc.registeredListeners.any (fun r => r.id == d.id))) = []
  apply List.filter_eq_nil_iff.mpr
  intro d hd
  have hd2 : d ∈ acc.registeredListeners := by
    rw [← hsync]
    exact hd
  have hany : (acc.registeredListeners.any (fun r => r.id == d.id)) = true :=
    List.any_eq_true.mpr ⟨d, hd2, by simp⟩
  simp [hany]

lemma endModal_lists_empty (s : ModalState) (hwf : ListenersWF s) (hc : HasCleanup s) :
    (endModal s).registeredListeners = [] ∧ (endModal s).domListeners = [] := by
  have hwfP : ListenersWF (endPre s) :=
    wf_of_lists_eq s (endPre s) (endPre_registeredListeners s) (endPre_domListeners s)
      (endPre_nextListenerId s) hwf
  have hcP : HasCleanup (endPre s) :=
    hc_of_reg_eq s (endPre s) (endPre_registeredListeners s) hc
  obtain ⟨A, B, i, h1, h2⟩ := hcP
  have hdom : (endPre s).domListeners
      = A ++ (⟨i, "modalEnd", [Action.cleanup]⟩ : RegListener) :: B :=
    hwfP.sync.trans h1
  have hsnap : (endPre s).domListeners.filter (fun l => l.type == "modalEnd")
      = A.filter (fun l => l.type == "modalEnd")
        ++ (⟨i, "modalEnd", [Action.cleanup]⟩ : RegListener)
          :: B.filter (fun l => l.type == "modalEnd") := by
    rw [hdom, List.filter_append, List.filter_cons]
    rw [if_pos (show ((⟨i, "modalEnd", [Action.cleanup]⟩ : RegListener).type == "modalEnd")
      = true from by simp)]
  have hA : ∀ l ∈ A.filter (fun l => l.type == "modalEnd"), UserOnly l.actions :=
    fun l hl => h2 l (List.mem_of_mem_filter hl)
  obtain ⟨e1, e2⟩ := foldl_dispatchStep_lists_of_userOnly
    (A.filter (fun l => l.type == "modalEnd")) (endPre s) hA
  have hclmem : (⟨i, "modalEnd", [Action.cleanup]⟩ : RegListener)
      ∈ ((A.filter (fun l => l.type == "modalEnd")).foldl dispatchStep (endPre s)).domListeners := by
    rw [e2, hdom]
    exact List.mem_append.mpr (Or.inr (List.mem_cons_self _ _))
  have hstep2 : dispatchStep
      ((A.filter (fun l => l.type == "modalEnd")).foldl dispatchStep (endPre s))
      ⟨i, "modalEnd", [Action.cleanup]⟩
      = runListener ((A.filter (fun l => l.type == "modalEnd")).foldl dispatchStep (endPre s))
          ⟨i, "modalEnd", [Action.cleanup]⟩ := by
    rw [dispatchStep_eq, if_pos (List.any_eq_true.mpr ⟨_, hclmem, by simp⟩)]
  have hsync1 :
      ((A.filter (fun l => l.type == "modalEnd")).foldl dispatchStep (endPre s)).domListeners
      = ((A.filter (fun l => l.type == "modalEnd")).foldl dispatchStep
          (endPre s)).registeredListeners := by
    rw [e1, e2]
    exact hwfP.sync
  obtain ⟨c1, c2⟩ := cleanup_runListener
    ((A.filter (fun l => l.type == "modalEnd")).foldl dispatchStep (endPre s)) i hsync1
  have hfold : dispatchDynamic (endPre s) "modalEnd"
      = runListener ((A.filter (fun l => l.type == "modalEnd")).foldl dispatchStep (endPre s))
          ⟨i, "modalEnd", [Action.cleanup]⟩ := by
    rw [dispatchDynamic_eq, hsnap, List.foldl_append, List.foldl_cons, hstep2]
    exact foldl_dispatchStep_of_empty_dom _ _ c2
  have hreg : (dispatchDynamic (endPre s) "modalEnd").registeredListeners = [] := by
    rw [hfold]
    exact c1
  have hdm : (dispatchDynamic (endPre s) "modalEnd").domListeners = [] := by
    rw [hfold]
    exact c2
  constructor
  · show (invokeEventAux (endPre s) "modalEnd").registeredListeners = []
    rw [invokeEventAux_eq]
    show (dispatchDynamic (endPre s) "modalEnd").registeredListeners.filter _ = []
    rw [hreg]
    rfl
  · show (invokeEventAux (endPre s) "modalEnd").domListeners = []
    rw [invokeEventAux_eq]
    show (dispatchDynamic (endPre s) "modalEnd").domListeners.filter _ = []
    rw [hdm]
    rfl

lemma endModal_of_ended (s : ModalState) (hr : s.registeredListeners = [])
    (hd : s.domListeners = []) (hm : s.modalDisplay = none)
    (hp : s.preModalFocusTarget = none) (ha : s.isActive = false) : endModal s = s := by
  cases s with
  | mk f1 f2 f3 f4 f5 f6 f7 f8 f9 reg dom f12 f13 f14 =>
      simp only at hr hd hm hp ha
      subst hr
      subst hd
      subst hm
      subst hp
      subst ha
      rfl

lemma invokeEvent_of_ended (s : ModalState) (ty : String)
    (hr : s.registeredListeners = []) (hd : s.domListeners = [])
    (hm : s.modalDisplay = none) (hp : s.preModalFocusTarget = none)
    (ha : s.isActive = false) : invokeEvent s ty = s := by
  have hend : endModal s = s := endModal_of_ended s hr hd hm hp ha
  have hbase : builtinClick s ty = s := by
    rw [builtinClick_eq]
    split
    · exact hend
    · rfl
  have hdisp : dispatch s ty = s := by
    rw [dispatch_eq, hbase, hd]
    rfl
  rw [invokeEvent_eq, hdisp]
  cases s with
  | mk f1 f2 f3 f4 f5 f6 f7 f8 f9 reg dom f12 f13 f14 =>
      simp only at hr hd
      subst hr
      subst hd
      rfl

lemma start_establishes (s : ModalState) (t d : String) (e c dc stt : JSArg)
    (s1 : ModalState) (hcl : Clean s)
    (hse : SafeArg e) (hsc : SafeArg c) (hsdc : SafeArg dc) (hsst : SafeArg stt)
    (h : start s t d e c dc stt = Except.ok s1) :
    ListenersWF s1 ∧ HasCleanup s1 ∧
    (∀ acts, c = JSArg.arr acts →
      ∃ i, (⟨i, "modalConfirm", acts⟩ : RegListener) ∈ s1.registeredListeners) ∧
    (∀ acts, dc = JSArg.arr acts →
      ∃ i, (⟨i, "modalDecline", acts⟩ : RegListener) ∈ s1.registeredListeners) := by
  obtain ⟨ha, rfl⟩ := start_ok_shape h
  set q0 : ModalState := { s with titleHTML := t, descriptionHTML := d } with hq0
  set q1 : ModalState := registerActions q0 "modalStart" stt with hq1
  set q2 : ModalState := registerActions q1 "modalConfirm" c with hq2
  set q3 : ModalState := registerActions q2 "modalDecline" dc with hq3
  set q4 : ModalState := registerActions q3 "modalEnd" e with hq4
  set q5 : ModalState := registerActions q4 "modalEnd" (JSArg.arr [Action.cleanup]) with hq5
  have hwf0 : ListenersWF q0 := clean_wf q0 ⟨hcl.1, hcl.2⟩
  have hall0 : AllUserReg q0 := clean_allUser q0 ⟨hcl.1, hcl.2⟩
  have hwf1 : ListenersWF q1 := wf_registerActions_any q0 "modalStart" stt hwf0 hsst
  have hall1 : AllUserReg q1 := allUser_registerActions_safe q0 "modalStart" stt hall0 hsst
  have hwf2 : ListenersWF q2 := wf_registerActions_any q1 "modalConfirm" c hwf1 hsc
  have hall2 : AllUserReg q2 := allUser_registerActions_safe q1 "modalConfirm" c hall1 hsc
  have hwf3 : ListenersWF q3 := wf_registerActions_any q2 "modalDecline" dc hwf2 hsdc
  have hall3 : AllUserReg q3 := allUser_registerActions_safe q2 "modalDecline" dc hall2 hsdc
  have hwf4 : ListenersWF q4 := wf_registerActions_any q3 "modalEnd" e hwf3 hse
  have hall4 : AllUserReg q4 := allUser_registerActions_safe q3 "modalEnd" e hall3 hse
  have hwf5 : ListenersWF q5 :=
    wf_registerActions q4 "modalEnd" [Action.cleanup] hwf4 (Or.inr ⟨rfl, rfl⟩)
  have hc5 : HasCleanup q5 := hasCleanup_register_cleanup q4 hall4
  have hpre_reg : (startPre s t d e c dc stt).registeredListeners
      = q5.registeredListeners := rfl
  have hpre_dom : (startPre s t d e c dc stt).domListeners = q5.domListeners := rfl
  have hpre_next : (startPre s t d e c dc stt).nextListenerId = q5.nextListenerId := rfl
  have hwfP : ListenersWF (startPre s t d e c dc stt) :=
    wf_of_lists_eq q5 _ hpre_reg hpre_dom hpre_next hwf5
  have hcP : HasCleanup (startPre s t d e c dc stt) := hc_of_reg_eq q5 _ hpre_reg hc5
  have hne : ("modalStart" : String) ≠ "modalEnd" := by decide
  have hnc : (("modalStart" : String) == "click") = false := by decide
  have hwfI : ListenersWF (invokeEvent (startPre s t d e c dc stt) "modalStart") :=
    wf_invokeEvent _ _ hwfP hne hnc
  have hcI : HasCleanup (invokeEvent (startPre s t d e c dc stt) "modalStart") :=
    hasCleanup_invokeEvent _ _ hwfP hcP hne hnc
  obtain ⟨hrI, -⟩ := invokeEvent_reg_dom_of_wf (startPre s t d e c dc stt) "modalStart"
    hwfP hne hnc
  refine ⟨wf_of_lists_eq (invokeEvent (startPre s t d e c dc stt) "modalStart") _
      rfl rfl rfl hwfI,
    hc_of_reg_eq (invokeEvent (startPre s t d e c dc stt) "modalStart") _ rfl hcI, ?_, ?_⟩
  · intro acts hac
    refine ⟨q1.nextListenerId, ?_⟩
    show (⟨q1.nextListenerId, "modalConfirm", acts⟩ : RegListener)
      ∈ (invokeEvent (startPre s t d e c dc stt) "modalStart").registeredListeners
    rw [hrI]
    apply List.mem_filter.mpr
    refine ⟨?_, by simp⟩
    rw [hpre_reg, hq5]
    apply mem_registerActions
    rw [hq4]
    apply mem_registerActions
    rw [hq3]
    apply mem_registerActions
    rw [hq2, hac]
    exact self_mem_registerActions q1 "modalConfirm" acts
  · intro acts hac
    refine ⟨q2.nextListenerId, ?_⟩
    show (⟨q2.nextListenerId, "modalDecline", acts⟩ : RegListener)
      ∈ (invokeEvent (startPre s t d e c dc stt) "modalStart").registeredListeners
    rw [hrI]
    apply List.mem_filter.mpr
    refine ⟨?_, by simp⟩
    rw [hpre_reg, hq5]
    apply mem_registerActions
    rw [hq4]
    apply mem_registerActions
    rw [hq3, hac]
    exact self_mem_registerActions q2 "modalDecline" acts

lemma mids_preserve (mids : List MidOp) :
    ∀ s : ModalState, ListenersWF s → HasCleanup s → NoEndInvoke mids →
      ListenersWF (applyMids s mids) ∧ HasCleanup (applyMids s mids) := by
  induction mids with
  | nil => exact fun s hwf hc _ => ⟨hwf, hc⟩
  | cons op rest ih =>
      intro s hwf hc hne
      have hne2 : NoEndInvoke rest := fun ty hm => hne ty (List.mem_cons_of_mem op hm)
      have hstep : ListenersWF (applyMid s op) ∧ HasCleanup (applyMid s op) := by
        cases op with
        | register ty acts =>
            exact ⟨wf_registerActions_any s ty (uArr acts) hwf (userOnly_map_user acts),
              hasCleanup_registerActions s ty (uArr acts) hc⟩
        | invoke ty =>
            have hty := hne ty (List.mem_cons_self _ _)
            have hclick : (ty == "click") = false := beq_eq_false_iff_ne.mpr hty.2
            exact ⟨wf_invokeEvent s ty hwf hty.1 hclick,
              hasCleanup_invokeEvent s ty hwf hc hty.1 hclick⟩
        | setConfirm v =>
            exact ⟨wf_of_lists_eq s _ (setConfirmText_registeredListeners s v)
                (setConfirmText_domListeners s v) (setConfirmText_nextListenerId s v) hwf,
              hc_of_reg_eq s _ (setConfirmText_registeredListeners s v) hc⟩
        | setDecline v =>
            exact ⟨wf_of_lists_eq s _ (setDeclineText_registeredListeners s v)
                (setDeclineText_domListeners s v) (setDeclineText_nextListenerId s v) hwf,
              hc_of_reg_eq s _ (setDeclineText_registeredListeners s v) hc⟩
      exact ih (applyMid s op) hstep.1 hstep.2 hne2

/-- C2 counterexample: the claim fails as stated.  During an invocation the
end event is dispatched manually via `invokeEvent`, which fires the internal
cleanup listener and empties the registry; a confirm callback (action 9)
registered afterwards — still during the same invocation — survives `end()`,
and manually dispatching the confirm event after `end()` invokes it. -/
theorem end_detach_counterexample :
    start initialState "t" "d" JSArg.undef (uArr [7]) JSArg.undef JSArg.undef
      = Except.ok cexStarted ∧
    (invokeEvent cexStarted "modalEnd").registeredListeners = [] ∧
    cexEnded.registeredListeners
      = [⟨2, "modalConfirm", [Action.user 9]⟩] ∧
    (invokeEvent cexEnded "modalConfirm").trace = cexEnded.trace ++ [(9, false)] := by
  refine ⟨rfl, ?_, ?_, ?_⟩ <;> decide

/-- C2 amended: after `end()` completes, every callback registered during
that invocation (via the `start` arguments or mid-invocation
`registerActions` calls, for any of the four event kinds) is detached —
dispatching any event kind again via `invokeEvent` invokes none of them and
nothing carries over into the next `start` — provided no `invokeEvent` call
during the invocation dispatches the end event kind or a click event:
dispatching the end event fires the one-shot cleanup listener directly, and
a click dispatch triggers the built-in overlay handler, which runs `end()`;
either consumes the cleanup listener early, after which later registrations
leak past `end()`. -/
theorem end_detaches_invocation_callbacks :
    ∀ (s : ModalState) (t d : String) (e c dc stt : Option (List Nat)) (s1 : ModalState)
      (mids : List MidOp),
      Clean s →
      start s t d (toArg e) (toArg c) (toArg dc) (toArg stt) = Except.ok s1 →
      NoEndInvoke mids →
      (endModal (applyMids s1 mids)).registeredListeners = [] ∧
      (endModal (applyMids s1 mids)).domListeners = [] ∧
      ∀ ty, invokeEvent (endModal (applyMids s1 mids)) ty = endModal (applyMids s1 mids) := by
  intro s t d e c dc stt s1 mids hcl h hne
  obtain ⟨hwf1, hc1, -, -⟩ := start_establishes s t d (toArg e) (toArg c) (toArg dc)
    (toArg stt) s1 hcl (safeArg_toArg e) (safeArg_toArg c) (safeArg_toArg dc)
    (safeArg_toArg stt) h
  obtain ⟨hwf2, hc2⟩ := mids_preserve mids s1 hwf1 hc1 hne
  obtain ⟨hr, hd⟩ := endModal_lists_empty (applyMids s1 mids) hwf2 hc2
  exact ⟨hr, hd, fun ty => invokeEvent_of_ended _ ty hr hd
    (endModal_modalDisplay _) (endModal_preModalFocusTarget _) rfl⟩

theorem end_detaches_invocation_callbacks_witness :
    (endModal (applyMids startedState [])).registeredListeners = [] :=
  (end_detaches_invocation_callbacks initialState "t" "d" none none none none startedState
    [] ⟨rfl, rfl⟩ rfl (fun _ hm => absurd hm (List.not_mem_nil _))).1

/-- C5 counterexample: the claim fails as stated.  Passing `null` as the
`onConfirmActions` group registers nothing (the spec itself treats nullish
groups as missing), yet after `start` the confirm button is visible, because
the visibility check compares against `undefined` only while
`registerActions` guards on falsiness. -/
theorem confirm_visible_without_group_counterexample :
    start initialState "t" "d" JSArg.undef JSArg.null JSArg.undef JSArg.undef
      = Except.ok nullConfirmStarted ∧
    nullConfirmStarted.confirmDisplay = some "block" ∧
    nullConfirmStarted.registeredListeners = [⟨0, "modalEnd", [Action.cleanup]⟩] ∧
    ∀ l ∈ nullConfirmStarted.registeredListeners, l.type ≠ "modalConfirm" := by
  refine ⟨rfl, ?_, ?_, ?_⟩ <;> decide

/-- C5 amended: after a successful `start`, the confirm button is visible if
and only if the `onConfirmActions` argument was not `undefined` — in
particular a `null` argument shows the button although it registers no
actions — and when the argument is an array its actions are registered;
symmetrically for the decline button; an `undefined` argument restores the
hidden state, independently per invocation. -/
theorem button_visibility_iff_not_undefined :
    ∀ (s : ModalState) (t d : String) (e c dc stt : JSArg) (s1 : ModalState),
      Clean s → SafeArg e → SafeArg c → SafeArg dc → SafeArg stt →
      start s t d e c dc stt = Except.ok s1 →
      ((s1.confirmDisplay = some "block") ↔ c ≠ JSArg.undef) ∧
      (c = JSArg.undef → s1.confirmDisplay = none) ∧
      ((s1.declineDisplay = some "block") ↔ dc ≠ JSArg.undef) ∧
      (dc = JSArg.undef → s1.declineDisplay = none) ∧
      (∀ acts, c = JSArg.arr acts →
        ∃ i, (⟨i, "modalConfirm", acts⟩ : RegListener) ∈ s1.registeredListeners) ∧
      (∀ acts, dc = JSArg.arr acts →
        ∃ i, (⟨i, "modalDecline", acts⟩ : RegListener) ∈ s1.registeredListeners) := by
  intro s t d e c dc stt s1 hcl hse hsc hsdc hsst h
  obtain ⟨-, -, hmc, hmd⟩ := start_establishes s t d e c dc stt s1 hcl hse hsc hsdc hsst h
  obtain ⟨ha, rfl⟩ := start_ok_shape h
  have hcd : ({ invokeEvent (startPre s t d e c dc stt) "modalStart" with
      isActive := true } : ModalState).confirmDisplay
      = if c = JSArg.undef then none else some "block" := by
    show (invokeEvent (startPre s t d e c dc stt) "modalStart").confirmDisplay = _
    rw [invokeEvent_eq_aux _ _ (by decide),
      (invokeEventAux_ext _ _).pres.confirmDisplay, startPre_confirmDisplay]
  have hdd : ({ invokeEvent (startPre s t d e c dc stt) "modalStart" with
      isActive := true } : ModalState).declineDisplay
      = if dc = JSArg.undef then none else some "block" := by
    show (invokeEvent (startPre s t d e c dc stt) "modalStart").declineDisplay = _
    rw [invokeEvent_eq_aux _ _ (by decide),
      (invokeEventAux_ext _ _).pres.declineDisplay, startPre_declineDisplay]
  refine ⟨?_, ?_, ?_, ?_, hmc, hmd⟩
  · rw [hcd]
    by_cases hc : c = JSArg.undef <;> simp [hc]
  · intro hcu
    rw [hcd, if_pos hcu]
  · rw [hdd]
    by_cases hc : dc = JSArg.undef <;> simp [hc]
  · intro hdu
    rw [hdd, if_pos hdu]

theorem button_visibility_iff_not_undefined_witness :
    (fourGroupStarted.confirmDisplay = some "block") ↔ uArr [2] ≠ JSArg.undef :=
  (button_visibility_iff_not_undefined initialState "t" "d" (uArr [1]) (uArr [2]) (uArr [3])
    (uArr [4]) fourGroupStarted ⟨rfl, rfl⟩ (userOnly_map_user [1]) (userOnly_map_user [2])
    (userOnly_map_user [3]) (userOnly_map_user [4]) rfl).1

lemma foldl_runAction_user (l : List Nat) :
    ∀ st : ModalState, (l.map Action.user).foldl runAction st
      = { st with trace := st.trace ++ l.map (fun i => (i, st.isActive)) } := by
  induction l with
  | nil => intro st; simp
  | cons i rest ih =>
      intro st
      rw [List.map_cons, List.foldl_cons]
      show (rest.map Action.user).foldl runAction
        { st with trace := st.trace ++ [(i, st.isActive)] } = _
      rw [ih]
      simp

/-- C4: from a freshly started invocation, clicking the confirm button
invokes every `onConfirmActions` action exactly once, in registration order,
and subsequently every `onEndActions` action exactly once; clicking decline
fires the decline actions then the end actions; clicking close or the
overlay background invokes only the end actions, never the confirm or
decline ones.  The trace equality captures the exact multiset and order of
invoked actions. -/
theorem click_handlers_fire_actions_in_order :
    ∀ (s : ModalState) (t d : String) (es cs ds ss : List Nat) (s1 : ModalState),
      Ready s →
      start s t d (uArr es) (uArr cs) (uArr ds) (uArr ss) = Except.ok s1 →
      (clickConfirmButton s1).trace
        = s1.trace ++ cs.map (fun i => (i, true)) ++ es.map (fun i => (i, true)) ∧
      (clickDeclineButton s1).trace
        = s1.trace ++ ds.map (fun i => (i, true)) ++ es.map (fun i => (i, true)) ∧
      (clickCloseButton s1).trace = s1.trace ++ es.map (fun i => (i, true)) ∧
      (clickOverlay s1 true).trace = s1.trace ++ es.map (fun i => (i, true)) := by
  intro s t d es cs ds ss s1 hready h
  obtain ⟨⟨h1, h2⟩, h3, h4⟩ := hready
  obtain ⟨-, rfl⟩ := start_ok_shape h
  refine ⟨?_, ?_, ?_, ?_⟩ <;>
    simp [clickConfirmButton, clickDeclineButton, clickCloseButton, clickOverlay, endModal,
      endPre, invokeEvent, invokeEventAux, dispatch, dispatchDynamic, builtinClick,
      dispatchStep, runListener, runAction, startPre, registerActions, uArr,
      foldl_runAction_user, h1, h2, h3, h4, List.append_assoc]

theorem click_handlers_fire_actions_in_order_witness :
    (clickConfirmButton fourGroupStarted).trace
      = fourGroupStarted.trace ++ [2].map (fun i => (i, true))
        ++ [1].map (fun i => (i, true)) :=
  (click_handlers_fire_actions_in_order initialState "t" "d" [1] [2] [3] [4]
    fourGroupStarted ⟨⟨rfl, rfl⟩, rfl, rfl⟩ rfl).1

end ModalElement
